import Mathlib

/-
  Verification development for the Durable Streams Python client
  (packages/client-py and packages/state-py).

  Shallow embedding: Python strings are Lean `String`s (operated on as
  `List Char` where convenient), byte payloads that the code only ever
  concatenates are modelled as `String`s, `None`-able values as `Option`,
  raising code as `Except`.  Each definition mirrors one function of the
  source; the source file and function are named in the doc comment.
-/

namespace DurableStreams

/-! ## Python string primitives -/

/-- Python `str.strip()` whitespace test, restricted to the ASCII whitespace
characters (the source only ever strips ASCII input). -/
def isPySpace (c : Char) : Bool :=
  c == ' ' || c == '\t' || c == '\n' || c == '\r' || c == '\x0b' || c == '\x0c'

/-- Python `str.strip()` on a character list. -/
def pyStrip (cs : List Char) : List Char :=
  ((cs.dropWhile isPySpace).reverse.dropWhile isPySpace).reverse

/-- Python `str.lower()` (ASCII case folding). -/
def pyLower (s : String) : String :=
  String.mk (s.data.map Char.toLower)

/-- Python `s.replace("-", "")`: remove every dash. -/
def removeDashes (s : String) : String :=
  String.mk (s.data.filter (fun c => c ≠ '-'))

/-- Boolean prefix test on character lists (Python `str.startswith`). -/
def chStarts : List Char → List Char → Bool
  | [], _ => true
  | _ :: _, [] => false
  | p :: ps, c :: cs => p == c && chStarts ps cs

/-- Characters of `content_type.split(";")[0]`: everything before the first
semicolon. -/
def takeUntilSemi : List Char → List Char
  | [] => []
  | c :: cs => if c = ';' then [] else c :: takeUntilSemi cs

/-! ## JSON values and Python's `json` module

`JsonVal` models the values `json.loads` produces.  Numeric literals are
kept as their raw lexeme (no claim compares numeric values).  -/

inductive JsonVal where
  | jnull
  | jbool (b : Bool)
  | jnum (raw : String)
  | jstr (s : String)
  | jarr (elems : List JsonVal)
  | jobj (fields : List (String × JsonVal))
  deriving Repr

/-- Python `dict.get` on the field list built by the object parser: a later
duplicate key overwrites an earlier one, so the last occurrence wins. -/
def objGet (fields : List (String × JsonVal)) (k : String) : Option JsonVal :=
  match fields.reverse.find? (fun f => f.1 = k) with
  | some f => some f.2
  | none => none

/-- JSON whitespace accepted by `json.loads` between tokens. -/
def jsonWs (c : Char) : Bool :=
  c == ' ' || c == '\t' || c == '\n' || c == '\r'

/-- Skip inter-token whitespace. -/
def skipWs (cs : List Char) : List Char := cs.dropWhile jsonWs

/-- Value of one hex digit, if any. -/
def hexVal (c : Char) : Option Nat :=
  if '0' ≤ c ∧ c ≤ '9' then some (c.toNat - '0'.toNat)
  else if 'a' ≤ c ∧ c ≤ 'f' then some (c.toNat - 'a'.toNat + 10)
  else if 'A' ≤ c ∧ c ≤ 'F' then some (c.toNat - 'A'.toNat + 10)
  else none

/-- Exactly four hex digits (the `\uXXXX` escape body). -/
def parseHex4 : List Char → Option (Nat × List Char)
  | a :: b :: c :: d :: rest =>
    match hexVal a, hexVal b, hexVal c, hexVal d with
    | some x, some y, some z, some w => some (((x * 16 + y) * 16 + z) * 16 + w, rest)
    | _, _, _, _ => none
  | _ => none

/-- Single-character string escapes recognized by `json.loads`. -/
def escChar (c : Char) : Option Char :=
  if c = '"' then some '"'
  else if c = '\\' then some '\\'
  else if c = '/' then some '/'
  else if c = 'b' then some '\x08'
  else if c = 'f' then some '\x0c'
  else if c = 'n' then some '\n'
  else if c = 'r' then some '\r'
  else if c = 't' then some '\t'
  else none

/-- Decode a code unit from a `\uXXXX` escape.  Python keeps lone surrogates
inside `str`; Lean `Char` cannot, so a lone surrogate becomes U+FFFD (no
claim exercises lone surrogates). -/
def charOfUnit (n : Nat) : Char :=
  if 0xD800 ≤ n ∧ n ≤ 0xDFFF then Char.ofNat 0xFFFD
  else Char.ofNat n

/-- Body of a JSON string literal, after the opening quote.  `json.loads`
(strict mode) rejects raw control characters below U+0020. -/
def parseStringBody : Nat → List Char → List Char → Option (String × List Char)
  | 0, _, _ => none
  | _ + 1, [], _ => none
  | fuel + 1, c :: rest, acc =>
    if c = '"' then some (String.mk acc.reverse, rest)
    else if c = '\\' then
      match rest with
      | [] => none
      | e :: r =>
        if e = 'u' then
          match parseHex4 r with
          | none => none
          | some (n, r2) =>
            if 0xD800 ≤ n ∧ n ≤ 0xDBFF then
              match r2 with
              | '\\' :: 'u' :: r3 =>
                match parseHex4 r3 with
                | some (n2, r4) =>
                  if 0xDC00 ≤ n2 ∧ n2 ≤ 0xDFFF then
                    parseStringBody fuel r4
                      (Char.ofNat (0x10000 + (n - 0xD800) * 0x400 + (n2 - 0xDC00)) :: acc)
                  else parseStringBody fuel r2 (charOfUnit n :: acc)
                | none => parseStringBody fuel r2 (charOfUnit n :: acc)
              | _ => parseStringBody fuel r2 (charOfUnit n :: acc)
            else parseStringBody fuel r2 (charOfUnit n :: acc)
        else
          match escChar e with
          | some d => parseStringBody fuel r (d :: acc)
          | none => none
    else if c.toNat < 0x20 then none
    else parseStringBody fuel rest (c :: acc)

/-- Digit span of a numeric lexeme. -/
def digitSpan (cs : List Char) : List Char × List Char :=
  (cs.takeWhile Char.isDigit, cs.dropWhile Char.isDigit)

/-- The JSON number grammar `-?(0|[1-9][0-9]*)(\.[0-9]+)?([eE][+-]?[0-9]+)?`,
returning the raw lexeme. -/
def parseNumber (cs : List Char) : Option (List Char × List Char) :=
  let (sign, cs1) := match cs with
    | '-' :: r => (['-'], r)
    | _ => (([] : List Char), cs)
  match cs1 with
  | [] => none
  | c :: r =>
    if ¬ c.isDigit then none
    else
      let (intPart, rest) :=
        if c = '0' then ([c], r)
        else
          let (ds, rest) := digitSpan r
          (c :: ds, rest)
      let (fracPart, rest2) :=
        match rest with
        | '.' :: fr =>
          let (ds, r2) := digitSpan fr
          if ds = [] then (none, rest) else (some ('.' :: ds), r2)
        | _ => (none, rest)
      let (expPart, rest3) :=
        match rest2 with
        | e :: er =>
          if e = 'e' ∨ e = 'E' then
            let (esign, er2) := match er with
              | '+' :: t => (['+'], t)
              | '-' :: t => (['-'], t)
              | _ => (([] : List Char), er)
            let (ds, r3) := digitSpan er2
            if ds = [] then (none, rest2) else (some (e :: (esign ++ ds)), r3)
          else (none, rest2)
        | [] => (none, rest2)
      some (sign ++ intPart ++ fracPart.getD [] ++ expPart.getD [], rest3)

mutual

/-- One JSON value, fuel-bounded recursive descent mirroring `json.loads`
(including Python's default acceptance of `NaN`, `Infinity`, `-Infinity`). -/
def parseVal : Nat → List Char → Option (JsonVal × List Char)
  | 0, _ => none
  | fuel + 1, cs =>
    let cs := skipWs cs
    match cs with
    | [] => none
    | c :: rest =>
      if c = '{' then parseMembers fuel rest true
      else if c = '[' then parseElems fuel rest true
      else if c = '"' then
        match parseStringBody (rest.length + 1) rest [] with
        | some (s, r) => some (.jstr s, r)
        | none => none
      else if chStarts "true".data cs then some (.jbool true, cs.drop 4)
      else if chStarts "false".data cs then some (.jbool false, cs.drop 5)
      else if chStarts "null".data cs then some (.jnull, cs.drop 4)
      else if chStarts "NaN".data cs then some (.jnum "NaN", cs.drop 3)
      else if chStarts "Infinity".data cs then some (.jnum "Infinity", cs.drop 8)
      else if chStarts "-Infinity".data cs then some (.jnum "-Infinity", cs.drop 9)
      else
        match parseNumber cs with
        | some (lex, r) => some (.jnum (String.mk lex), r)
        | none => none

/-- Members of a JSON object after the opening brace; `first` is true before
any member has been read. -/
def parseMembers : Nat → List Char → Bool → Option (JsonVal × List Char)
  | 0, _, _ => none
  | fuel + 1, cs, first =>
    let cs := skipWs cs
    match cs with
    | [] => none
    | c :: rest =>
      if first ∧ c = '}' then some (.jobj [], rest)
      else
        match parseNamed fuel cs [] with
        | some (fields, r) => some (.jobj fields, r)
        | none => none

/-- The non-empty member list `"k" : v (, "k" : v)* }`. -/
def parseNamed : Nat → List Char → List (String × JsonVal) →
    Option (List (String × JsonVal) × List Char)
  | 0, _, _ => none
  | fuel + 1, cs, acc =>
    match skipWs cs with
    | '"' :: rest =>
      match parseStringBody (rest.length + 1) rest [] with
      | none => none
      | some (k, r) =>
        match skipWs r with
        | ':' :: r2 =>
          match parseVal fuel r2 with
          | none => none
          | some (v, r3) =>
            match skipWs r3 with
            | ',' :: r4 => parseNamed fuel r4 (acc ++ [(k, v)])
            | '}' :: r4 => some (acc ++ [(k, v)], r4)
            | _ => none
        | _ => none
    | _ => none

/-- Elements of a JSON array after the opening bracket. -/
def parseElems : Nat → List Char → Bool → Option (JsonVal × List Char)
  | 0, _, _ => none
  | fuel + 1, cs, first =>
    let cs := skipWs cs
    match cs with
    | [] => none
    | c :: rest =>
      if first ∧ c = ']' then some (.jarr [], rest)
      else
        match parseItems fuel cs [] with
        | some (xs, r) => some (.jarr xs, r)
        | none => none

/-- The non-empty element list `v (, v)* ]`. -/
def parseItems : Nat → List Char → List JsonVal → Option (List JsonVal × List Char)
  | 0, _, _ => none
  | fuel + 1, cs, acc =>
    match parseVal fuel cs with
    | none => none
    | some (v, r) =>
      match skipWs r with
      | ',' :: r2 => parseItems fuel r2 (acc ++ [v])
      | ']' :: r2 => some (acc ++ [v], r2)
      | _ => none

end

/-- Python `json.loads`: parse one JSON document, requiring only whitespace
after it; `none` models `json.JSONDecodeError`. -/
def pyJsonLoads (s : String) : Option JsonVal :=
  let cs := s.data
  match parseVal (2 * cs.length + 4) cs with
  | some (v, rest) => if skipWs rest = [] then some v else none
  | none => none

/-- Lowercase hex digit. -/
def hexDigit (n : Nat) : Char :=
  if n < 10 then Char.ofNat ('0'.toNat + n) else Char.ofNat ('a'.toNat + (n - 10))

/-- Four lowercase hex digits (the `\uXXXX` form `json.dumps` emits). -/
def hex4 (n : Nat) : List Char :=
  [hexDigit (n / 4096 % 16), hexDigit (n / 256 % 16), hexDigit (n / 16 % 16), hexDigit (n % 16)]

/-- Escape of one character under `json.dumps` with the default
`ensure_ascii=True`: printable ASCII other than quote and backslash passes
through, everything else is escaped. -/
def jsonEscapeChar (c : Char) : List Char :=
  if c = '"' then ['\\', '"']
  else if c = '\\' then ['\\', '\\']
  else if c = '\n' then ['\\', 'n']
  else if c = '\r' then ['\\', 'r']
  else if c = '\t' then ['\\', 't']
  else if c = '\x08' then ['\\', 'b']
  else if c = '\x0c' then ['\\', 'f']
  else if c.toNat < 0x20 then '\\' :: 'u' :: hex4 c.toNat
  else if c.toNat < 0x7f then [c]
  else if c.toNat ≤ 0xFFFF then '\\' :: 'u' :: hex4 c.toNat
  else
    let n := c.toNat - 0x10000
    ('\\' :: 'u' :: hex4 (0xD800 + n / 0x400)) ++ ('\\' :: 'u' :: hex4 (0xDC00 + n % 0x400))

/-- Python `json.dumps` applied to a `str` value: the quoted, escaped JSON
string literal. -/
def pyJsonDumpsStr (s : String) : String :=
  "\"" ++ String.mk (s.data.map jsonEscapeChar).flatten ++ "\""

/-! ## Content types and append bodies (`_util.py`, `_parse.py`,
`durable_stream.py`) -/

/-- `_util.normalize_content_type`: media type before any semicolon,
stripped and lowercased; `None` and `""` normalize to `""`. -/
def normalize_content_type (content_type : Option String) : String :=
  match content_type with
  | none => ""
  | some s =>
    if s = "" then ""
    else String.mk ((pyStrip (takeUntilSemi s.data)).map Char.toLower)

/-- `_util.is_json_content_type`. -/
def is_json_content_type (content_type : Option String) : Bool :=
  normalize_content_type content_type = "application/json"

/-- `_parse.wrap_for_json_append`: wrap pre-serialized JSON text in a
one-element array literal. -/
def wrap_for_json_append (data : String) : String :=
  "[" ++ data ++ "]"

/-- `_parse.batch_for_json_append`: comma-join pre-serialized JSON texts
inside one array literal; the empty batch raises `ValueError`. -/
def batch_for_json_append (items : List String) : Option String :=
  if items = [] then none
  else some ("[" ++ String.intercalate "," items ++ "]")

/-- `_parse.batch_for_bytes_append`: concatenation; empty raises. -/
def batch_for_bytes_append (chunks : List String) : Option String :=
  if chunks = [] then none else some (String.join chunks)

/-- Request body built by `DurableStream._append_direct` for one appended
value (given as the pre-serialized JSON text / raw payload the caller
passed): the source computes
`json.dumps(wrap_for_json_append(data)).encode()` in JSON mode and
`encode_body(data)` otherwise. -/
def append_direct_body (content_type : Option String) (data : String) : String :=
  if is_json_content_type content_type then
    pyJsonDumpsStr (wrap_for_json_append data)
  else data

/-- Request body built by `DurableStream._send_batch` for a queue of
messages: `batch_for_json_append` of the raw message payloads in JSON mode,
byte concatenation otherwise. -/
def send_batch_body (content_type : Option String) (messages : List String) :
    Option String :=
  if is_json_content_type content_type then batch_for_json_append messages
  else batch_for_bytes_append messages

/-! ## SSE framer (`_sse.py`) -/

/-- Errors the SSE layer can raise while emitting an event:
`parseError` is the `DurableStreamError(code="PARSE_ERROR")` of
`SSEParser._emit_event`; `attributeError` is the uncaught Python
`AttributeError` hit when `json.loads` returns a non-dict and the code calls
`.get` on it. -/
inductive SSEError where
  | parseError
  | attributeError
  deriving Repr, DecidableEq

/-- The per-event accumulation of `SSEParser`: `_current_event_type` and
`_current_data`. -/
structure SSECore where
  eventType : Option String
  dataLines : List String
  deriving Repr, DecidableEq

/-- Parsed SSE events.  `SSEControlEvent`'s fields hold whatever JSON values
the members carried (`control.get(...)` does not check types). -/
inductive SSEEv where
  | dataEv (data : String)
  | controlEv (stream_next_offset : JsonVal) (stream_cursor : Option JsonVal)
      (up_to_date : JsonVal)
  deriving Repr

/-- `SSEParser._emit_event`: emit the accumulated event, if valid.  An event
without both a type and data is dropped; `data` frames join their lines with
newlines; `control` frames parse their data as JSON. -/
def emit_event (core : SSECore) : Except SSEError (Option SSEEv) :=
  match core.eventType with
  | none => .ok none
  | some etype =>
    if core.dataLines = [] then .ok none
    else
      let data_str := String.intercalate "\n" core.dataLines
      if etype = "data" then .ok (some (.dataEv data_str))
      else if etype = "control" then
        match pyJsonLoads data_str with
        | none => .error .parseError
        | some (.jobj fields) =>
          .ok (some (.controlEv ((objGet fields "streamNextOffset").getD (.jstr ""))
            (objGet fields "streamCursor")
            ((objGet fields "upToDate").getD (.jbool false))))
        | some _ => .error .attributeError
      else .ok none

/-- One line of `SSEParser.feed`'s line loop: empty lines (also a lone CR)
emit the current event and reset; otherwise the trailing CR is stripped and
`event:` / `data:` fields are interpreted, all other lines ignored. -/
def handle_line (core : SSECore) (line : List Char) :
    Except SSEError (Option SSEEv × SSECore) :=
  if line = [] ∨ line = ['\r'] then
    match emit_event core with
    | .error e => .error e
    | .ok ev => .ok (ev, ⟨none, []⟩)
  else
    let line := if line.getLast? = some '\r' then line.dropLast else line
    if chStarts "event:".data line then
      .ok (none, { core with eventType := some (String.mk (pyStrip (line.drop 6))) })
    else if chStarts "data:".data line then
      let content := line.drop 5
      let content := if content.head? = some ' ' then content.drop 1 else content
      .ok (none, { core with dataLines := core.dataLines ++ [String.mk content] })
    else .ok (none, core)

/-- The line-splitting loop of `SSEParser.feed` over the characters of
`buffer + chunk`: `cur` is the partial line read so far; a newline hands the
line to `handle_line`; the final partial line is the new buffer. -/
def runChars : SSECore → List Char → List Char →
    Except SSEError (List SSEEv × SSECore × List Char)
  | core, cur, [] => .ok ([], core, cur)
  | core, cur, c :: cs =>
    if c = '\n' then
      match handle_line core cur with
      | .error e => .error e
      | .ok (ev, core') =>
        match runChars core' [] cs with
        | .error e => .error e
        | .ok (evs, cf, left) => .ok (ev.toList ++ evs, cf, left)
    else runChars core (cur ++ [c]) cs

/-- The full mutable state of an `SSEParser`. -/
structure SSEParserState where
  buffer : String
  core : SSECore
  deriving Repr, DecidableEq

/-- `SSEParser.__init__`. -/
def SSEParserState.init : SSEParserState := ⟨"", ⟨none, []⟩⟩

/-- `SSEParser.feed`: append the chunk to the buffer, process every complete
line, return the complete events; the raised `DurableStreamError` of a
malformed control frame is the `.error` case. -/
def feed (st : SSEParserState) (chunk : String) :
    Except SSEError (List SSEEv × SSEParserState) :=
  match runChars st.core [] (st.buffer.data ++ chunk.data) with
  | .error e => .error e
  | .ok (evs, core', left) => .ok (evs, ⟨String.mk left, core'⟩)

/-- Feeding two chunks in sequence, concatenating the emitted events: the
left-hand side of the chunk-boundary-insensitivity property. -/
def feedTwice (st : SSEParserState) (a b : String) :
    Except SSEError (List SSEEv × SSEParserState) :=
  match feed st a with
  | .error e => .error e
  | .ok (evs1, st1) =>
    match feed st1 b with
    | .error e => .error e
    | .ok (evs2, st2) => .ok (evs1 ++ evs2, st2)

/-! ## JSON response decoding (`_parse.py`) -/

/-- Error raised by `parse_json_response` (code `PARSE_ERROR`). -/
inductive StreamError where
  | parseError
  deriving Repr, DecidableEq

/-- `_parse.parse_json_response`. -/
def parse_json_response (s : String) : Except StreamError JsonVal :=
  match pyJsonLoads s with
  | some v => .ok v
  | none => .error .parseError

/-- `_parse.flatten_json_array`: one level of flattening. -/
def flatten_json_array : JsonVal → List JsonVal
  | .jarr xs => xs
  | v => [v]

/-- `_parse.decode_json_items` (without a custom decoder). -/
def decode_json_items (s : String) : Except StreamError (List JsonVal) :=
  match parse_json_response s with
  | .error e => .error e
  | .ok v => .ok (flatten_json_array v)

/-! ## SSE event iteration (`_response.py`, `StreamResponse._iter_sse_events`) -/

/-- Python truthiness of a JSON value (used by `if event.stream_cursor:`). -/
def pyTruthy : JsonVal → Bool
  | .jnull => false
  | .jbool b => b
  | .jnum raw =>
    if raw = "NaN" ∨ raw = "Infinity" ∨ raw = "-Infinity" then true
    else (raw.data.takeWhile (fun c => c ≠ 'e' ∧ c ≠ 'E')).any
      (fun c => c.isDigit ∧ c ≠ '0')
  | .jstr s => s ≠ ""
  | .jarr xs => ¬ xs.isEmpty
  | .jobj fs => ¬ fs.isEmpty

/-- The metadata the session mirrors from SSE control frames:
`_offset`, `_cursor`, `_up_to_date`. -/
structure SSEMeta where
  offset : JsonVal
  cursor : Option JsonVal
  up_to_date : JsonVal
  deriving Repr

/-- Metadata update on a control event: `self._offset = event.stream_next_offset;
if event.stream_cursor: self._cursor = ...; self._up_to_date = event.up_to_date`. -/
def applyControl (m : SSEMeta) (off : JsonVal) (cur : Option JsonVal)
    (utd : JsonVal) : SSEMeta :=
  { offset := off
    cursor :=
      match cur with
      | some v => if pyTruthy v then some v else m.cursor
      | none => m.cursor
    up_to_date := utd }

/-- The `mode` argument of `iter_events`. -/
inductive EvMode where
  | bytes
  | text
  | json
  | json_batches
  deriving Repr, DecidableEq

/-- Payload of a `StreamEvent`, per mode. -/
inductive EvData where
  | bytesData (s : String)
  | textData (s : String)
  | jsonData (items : List JsonVal)
  deriving Repr

/-- The per-mode conversion `_iter_sse_events` applies to a data frame when
buffering it (`json` and `json_batches` both call `decode_json_items`, which
can raise). -/
def convert_sse_data (mode : EvMode) (d : String) : Except StreamError EvData :=
  match mode with
  | .text => .ok (.textData d)
  | .json =>
    match decode_json_items d with
    | .error e => .error e
    | .ok xs => .ok (.jsonData xs)
  | .json_batches =>
    match decode_json_items d with
    | .error e => .error e
    | .ok xs => .ok (.jsonData xs)
  | .bytes => .ok (.bytesData d)

/-- The record yielded by `iter_events`. -/
structure StreamEvent where
  data : EvData
  next_offset : JsonVal
  up_to_date : JsonVal
  cursor : Option JsonVal
  deriving Repr

/-- `StreamResponse._iter_sse_events` over an already-parsed event list:
data frames are converted and buffered; a control frame updates the metadata
and flushes the buffer with the updated metadata; leftovers at end of stream
are emitted with the last known metadata. -/
def iter_sse_events_from (mode : EvMode) (buffered : List EvData) (m : SSEMeta) :
    List SSEEv → Except StreamError (List StreamEvent × SSEMeta)
  | [] => .ok (buffered.map (fun d => ⟨d, m.offset, m.up_to_date, m.cursor⟩), m)
  | .dataEv d :: rest =>
    match convert_sse_data mode d with
    | .error e => .error e
    | .ok x => iter_sse_events_from mode (buffered ++ [x]) m rest
  | .controlEv off cur utd :: rest =>
    let m' := applyControl m off cur utd
    match iter_sse_events_from mode [] m' rest with
    | .error e => .error e
    | .ok (evs, mf) =>
      .ok (buffered.map (fun d => ⟨d, m'.offset, m'.up_to_date, m'.cursor⟩) ++ evs, mf)

/-- `StreamResponse._iter_sse_events`, started with an empty buffer. -/
def iter_sse_events (mode : EvMode) (m : SSEMeta) (events : List SSEEv) :
    Except StreamError (List StreamEvent × SSEMeta) :=
  iter_sse_events_from mode [] m events

/-- Conversion of a run of data-frame payloads in order, stopping at the
first failure (the sequence of `convert_sse_data` results the iterator
produces while buffering). -/
def convertAll (mode : EvMode) : List String → Except StreamError (List EvData)
  | [] => .ok []
  | d :: rest =>
    match convert_sse_data mode d with
    | .error e => .error e
    | .ok x =>
      match convertAll mode rest with
      | .error e => .error e
      | .ok xs => .ok (x :: xs)

/-! ## Read-session consumption (`_response.py`, `_errors.py`) -/

/-- The errors a consumption method can raise before any data flows:
`StreamConsumedError` (`ALREADY_CONSUMED`), `SSEBytesIterationError`
(`SSE_BYTES_NOT_SUPPORTED`), `SSEReadAllError` (`SSE_READ_ALL_NOT_SUPPORTED`),
and the `ValueError` of a non-UTF-8 encoding in SSE mode. -/
inductive SessionError where
  | streamConsumed (attempted_method consumed_by : String)
  | sseBytesIteration
  | sseReadAll (method : String)
  | valueError
  deriving Repr, DecidableEq

/-- The message `StreamConsumedError.__init__` builds when both method names
are known. -/
def streamConsumedMessage (attempted_method consumed_by : String) : String :=
  "Cannot call " ++ attempted_method ++
    "() - stream was already consumed via " ++ consumed_by ++ "()"

/-- The `code` attribute of each session error. -/
def SessionError.code : SessionError → String
  | .streamConsumed _ _ => "ALREADY_CONSUMED"
  | .sseBytesIteration => "SSE_BYTES_NOT_SUPPORTED"
  | .sseReadAll _ => "SSE_READ_ALL_NOT_SUPPORTED"
  | .valueError => ""

/-- The state of a `StreamResponse` that the consumption gate touches. -/
structure Session where
  is_sse : Bool
  consumed_by : Option String
  closed : Bool
  deriving Repr, DecidableEq

/-- A consumption method together with its arguments. -/
inductive ConsumeOp where
  | iter
  | iter_text (encoding : String)
  | iter_json
  | iter_json_batches
  | iter_events (mode : EvMode) (encoding : String)
  | read_bytes
  | read_text (encoding : String)
  | read_json
  | read_json_batches
  deriving Repr, DecidableEq

/-- The name each method passes to `_ensure_not_consumed` /
`_mark_consumed`. -/
def methodName : ConsumeOp → String
  | .iter => "__iter__"
  | .iter_text _ => "iter_text"
  | .iter_json => "iter_json"
  | .iter_json_batches => "iter_json_batches"
  | .iter_events _ _ => "iter_events"
  | .read_bytes => "read_bytes"
  | .read_text _ => "read_text"
  | .read_json => "read_json"
  | .read_json_batches => "read_json_batches"

/-- `encoding.lower().replace("-", "")` of the SSE encoding check. -/
def normEncoding (encoding : String) : String :=
  removeDashes (pyLower encoding)

/-- The mode precheck each consumption method runs after
`_ensure_not_consumed` and before `_mark_consumed`, straight from the
method bodies in `_response.py`.  Note `iter_events` checks only
`mode == "bytes" and self._is_sse`; it has no encoding precheck. -/
def precheckError (s : Session) : ConsumeOp → Option SessionError
  | .iter => if s.is_sse then some .sseBytesIteration else none
  | .iter_text encoding =>
    if s.is_sse ∧ normEncoding encoding ≠ "utf8" then some .valueError else none
  | .iter_json => none
  | .iter_json_batches => none
  | .iter_events mode _ =>
    if mode = .bytes ∧ s.is_sse then some .sseBytesIteration else none
  | .read_bytes => if s.is_sse then some .sseBytesIteration else none
  | .read_text _ => if s.is_sse then some (.sseReadAll "read_text") else none
  | .read_json => if s.is_sse then some (.sseReadAll "read_json") else none
  | .read_json_batches =>
    if s.is_sse then some (.sseReadAll "read_json_batches") else none

/-- Invoking a consumption method: `_ensure_not_consumed`, then the mode
precheck, then `_mark_consumed`. -/
def consume (s : Session) (op : ConsumeOp) : Except SessionError Session :=
  match s.consumed_by with
  | some prev => .error (.streamConsumed (methodName op) prev)
  | none =>
    match precheckError s op with
    | some e => .error e
    | none => .ok { s with consumed_by := some (methodName op) }

/-- Any operation on the session that could conceivably touch
`consumed_by`: a consumption attempt (which leaves the state unchanged when
it raises) or `close`. -/
inductive SessionOp where
  | consumeOp (op : ConsumeOp)
  | close
  deriving Repr

/-- State transition of one session operation. -/
def applySession (s : Session) : SessionOp → Session
  | .consumeOp op =>
    match consume s op with
    | .ok s' => s'
    | .error _ => s
  | .close => { s with closed := true }

/-! ## Read-all loop (`_response.py`, `StreamResponse._read_bytes_internal`) -/

/-- The live mode of a session; `off` is the Python literal `False`. -/
inductive LiveMode where
  | off
  | auto
  | longPoll
  | sse
  deriving Repr, DecidableEq

/-- A non-SSE HTTP response as the read loop sees it: status plus the parsed
`Stream-Next-Offset`, `Stream-Cursor` and `Stream-Up-To-Date` headers and
the body bytes (modelled as a string, the loop only concatenates them). -/
structure RespR where
  status : Nat
  nextOffset : Option String
  cursor : Option String
  upToDate : Bool
  body : String
  deriving Repr, DecidableEq

/-- The offset/cursor/up-to-date slice of the session state. -/
structure RMeta where
  offset : String
  cursor : Option String
  up_to_date : Bool
  deriving Repr, DecidableEq

/-- `_update_metadata_from_response`: offset and cursor only overwrite when
the header is present and non-empty (Python truthiness); `up_to_date` is
overwritten from header presence unconditionally. -/
def update_metadata (m : RMeta) (r : RespR) : RMeta :=
  { offset :=
      match r.nextOffset with
      | some o => if o ≠ "" then o else m.offset
      | none => m.offset
    cursor :=
      match r.cursor with
      | some c => if c ≠ "" then some c else m.cursor
      | none => m.cursor
    up_to_date := r.upToDate }

/-- The continuation loop of `_read_bytes_internal` over the finite list of
responses `fetch_next` would deliver.  Returns the accumulated bytes, the
final metadata and the number of `fetch_next` calls made; `none` when the
loop would call `fetch_next` beyond the supplied responses.  Mirrors the
source: `while not self._up_to_date:`, then `if self._live is False: break`,
then fetch, update metadata, treat 204 as "caught up" contributing no
bytes. -/
def read_bytes_loop (live : LiveMode) : RMeta → List RespR →
    Option (String × RMeta × Nat)
  | m, [] =>
    if ¬ m.up_to_date then
      if live = .off then some ("", m, 0) else none
    else some ("", m, 0)
  | m, r :: rest =>
    if ¬ m.up_to_date then
      if live = .off then some ("", m, 0)
      else
        let m' := update_metadata m r
        if r.status = 204 then
          match read_bytes_loop live { m' with up_to_date := true } rest with
          | some (s, mf, n) => some (s, mf, n + 1)
          | none => none
        else
          match read_bytes_loop live m' rest with
          | some (s, mf, n) => some (r.body ++ s, mf, n + 1)
          | none => none
    else some ("", m, 0)

/-- `StreamResponse._read_bytes_internal`: the initial response's body is
read unconditionally (its headers were applied by the constructor), then the
loop runs. -/
def read_bytes_internal (live : LiveMode) (initial : RespR) (rest : List RespR) :
    Option (String × RMeta × Nat) :=
  let m := update_metadata ⟨"", none, false⟩ initial
  match read_bytes_loop live m rest with
  | some (s, mf, n) => some (initial.body ++ s, mf, n)
  | none => none

/-! ## StreamDB dispatcher (`state-py`, `stream_db.py`) -/

/-- `CollectionChange`. -/
structure CollectionChange where
  key : String
  type : String
  value : Option JsonVal
  previous_value : Option JsonVal
  deriving Repr

/-- The slice of a `CollectionView` that `dispatch_change` reads and
writes: committed `_data`, `_known_keys`, staged `_pending`. -/
structure CollectionState where
  data : List (String × JsonVal)
  known_keys : List String
  pending : List CollectionChange
  deriving Repr

/-- `CollectionView.get`: committed value of a key. -/
def CollectionState.get (v : CollectionState) (key : String) : Option JsonVal :=
  match v.data.find? (fun e => e.1 = key) with
  | some e => some e.2
  | none => none

/-- The headers of a change event, as `dispatch_change` reads them. -/
structure ChangeHeaders where
  operation : Option String
  txid : Option String
  control : Option String
  deriving Repr

/-- A `StateEvent` as a loose record: every field may be missing or, for
`value`, be a non-object. -/
structure StateEvent where
  type : Option String
  key : Option String
  value : Option JsonVal
  headers : Option ChangeHeaders
  deriving Repr

/-- `types.is_change_event`: the headers dict exists and has an
`operation` member. -/
def is_change_event (ev : StateEvent) : Bool :=
  match ev.headers with
  | some h => h.operation.isSome
  | none => false

/-- The `_Dispatcher` state touched by `dispatch_change`: the declared
collections keyed by their event `type`, the pending txid set, and the
`_pending_any` flag. -/
structure DispatcherState where
  collections : List (String × CollectionState)
  pending_txids : List String
  pending_any : Bool
  deriving Repr

/-- Dispatcher error: the `ValueError` raised for a non-object value of a
non-delete operation, or a schema-validation failure. -/
inductive DBError where
  | valueError
  | validationError
  deriving Repr, DecidableEq

/-- Replace the named collection's state. -/
def setCollection (st : DispatcherState) (etype : String) (v : CollectionState) :
    DispatcherState :=
  { st with
    collections := st.collections.map (fun e => if e.1 = etype then (e.1, v) else e) }

/-- `_Dispatcher.dispatch_change`.  `validate` stands for the collection
schema's `validate_incoming` (external pydantic code), given the event type,
the object value and the key. -/
def dispatch_change (validate : String → JsonVal → String → Except DBError JsonVal)
    (st : DispatcherState) (ev : StateEvent) : Except DBError DispatcherState :=
  if ¬ is_change_event ev then .ok st
  else
    let headers := ev.headers.getD ⟨none, none, none⟩
    let st :=
      match headers.txid with
      | some t =>
        if t ≠ "" ∧ ¬ st.pending_txids.contains t then
          { st with pending_txids := st.pending_txids ++ [t] }
        else st
      | none => st
    match ev.type, ev.key with
    | some etype, some key =>
      (match st.collections.find? (fun e => e.1 = etype) with
       | none => .ok st
       | some (_, view) =>
         match headers.operation with
         | none => .ok st
         | some op =>
           if op = "insert" ∨ op = "update" ∨ op = "delete" ∨ op = "upsert" then
             if op ≠ "delete" then
               match ev.value with
               | some (.jobj fs) =>
                 (match validate etype (.jobj fs) key with
                  | .error e => .error e
                  | .ok validated =>
                    let actual_op :=
                      if op = "upsert" then
                        if view.known_keys.contains key then "update" else "insert"
                      else op
                    let prev := view.get key
                    let ch : CollectionChange :=
                      ⟨key, actual_op, some validated,
                        if actual_op = "update" then prev else none⟩
                    .ok { (setCollection st etype
                            { view with pending := view.pending ++ [ch] }) with
                          pending_any := true })
               | _ => .error .valueError
             else
               let prev := view.get key
               let ch : CollectionChange := ⟨key, "delete", prev, none⟩
               .ok { (setCollection st etype
                       { view with pending := view.pending ++ [ch] }) with
                     pending_any := true }
           else .ok st)
    | _, _ => .ok st

/-! ## Idempotent producer (`idempotent_producer.py`) -/

/-- A producer response: status plus the `Producer-Epoch`,
`Producer-Expected-Seq`, `Producer-Received-Seq` and `Stream-Next-Offset`
headers (already converted by `int(...)` where the source does so). -/
structure ProdResp where
  status : Nat
  producerEpoch : Option Int
  expectedSeq : Option Int
  receivedSeq : Option Int
  nextOffset : Option String
  deriving Repr, DecidableEq

/-- Errors of `_do_send_batch`: `StaleEpochError`, `SequenceGapError`, the
`BAD_REQUEST` `DurableStreamError`, the generic `FetchError`, and the
model-level `noResponse` when the supplied response list runs out. -/
inductive ProducerError where
  | staleEpoch (current_epoch : Int)
  | sequenceGap (expected_seq received_seq : Int)
  | badRequest
  | fetchError (status : Nat)
  | noResponse
  deriving Repr, DecidableEq

/-- `IdempotentAppendResult`. -/
structure IdempotentAppendResult where
  offset : String
  duplicate : Bool
  deriving Repr, DecidableEq

/-- The producer fields `_do_send_batch` mutates: `_epoch` and `_next_seq`. -/
structure ProducerState where
  epoch : Int
  next_seq : Int
  deriving Repr, DecidableEq

/-- Trace of the observable actions of one `_do_send_batch` call: each POST
issued as `(epoch, seq, batch)`, and each `(epoch, seq)` passed to
`_wait_for_seq`. -/
structure SendTrace (α : Type) where
  requests : List (Int × Int × α)
  waits : List (Int × Int)
  deriving Repr

/-- The 409 recovery loop `for s in range(expected_seq, seq): await
self._wait_for_seq(epoch, s)` over an explicit list of sequence numbers.
`wait_for_seq` gives the outcome of awaiting one sequence (`some e` when the
awaited sequence failed, which re-raises).  Returns the first error, if any,
and the waits performed. -/
def awaitSeqList (wait_for_seq : Int → Int → Option ProducerError) (epoch : Int) :
    List Int → Option ProducerError × List (Int × Int)
  | [] => (none, [])
  | s :: rest =>
    match wait_for_seq epoch s with
    | some e => (some e, [(epoch, s)])
    | none =>
      let (r, ws) := awaitSeqList wait_for_seq epoch rest
      (r, (epoch, s) :: ws)

/-- `range(lo, hi)` as a list of `Int`s. -/
def intRange (lo hi : Int) : List Int :=
  (List.range (hi - lo).toNat).map (fun i : Nat => lo + (i : Int))

/-- `IdempotentProducer._do_send_batch`, driven by the finite list of
responses the server returns to the successive POSTs.  Returns the result
(or raised error), the final producer state, and the trace of requests and
waits. -/
def do_send_batch {α : Type} (auto_claim : Bool) (batch : α)
    (wait_for_seq : Int → Int → Option ProducerError) :
    ProducerState → Int → Int → List ProdResp →
    Except ProducerError IdempotentAppendResult × ProducerState × SendTrace α
  | st, seq, epoch, [] => (.error .noResponse, st, ⟨[(epoch, seq, batch)], []⟩)
  | st, seq, epoch, r :: rest =>
    let req : Int × Int × α := (epoch, seq, batch)
    match r.status with
    | 204 => (.ok ⟨"", true⟩, st, ⟨[req], []⟩)
    | 200 => (.ok ⟨r.nextOffset.getD "", false⟩, st, ⟨[req], []⟩)
    | 403 =>
      let current_epoch := r.producerEpoch.getD epoch
      if auto_claim then
        let new_epoch := current_epoch + 1
        let st' : ProducerState := { epoch := new_epoch, next_seq := 1 }
        let (res, stf, tr) := do_send_batch auto_claim batch wait_for_seq st' 0 new_epoch rest
        (res, stf, ⟨req :: tr.requests, tr.waits⟩)
      else (.error (.staleEpoch current_epoch), st, ⟨[req], []⟩)
    | 409 =>
      let expected_seq := r.expectedSeq.getD 0
      if expected_seq < seq then
        match awaitSeqList wait_for_seq epoch (intRange expected_seq seq) with
        | (some e, ws) => (.error e, st, ⟨[req], ws⟩)
        | (none, ws) =>
          let (res, stf, tr) := do_send_batch auto_claim batch wait_for_seq st seq epoch rest
          (res, stf, ⟨req :: tr.requests, ws ++ tr.waits⟩)
      else
        (.error (.sequenceGap expected_seq (r.receivedSeq.getD seq)), st, ⟨[req], []⟩)
    | 400 => (.error .badRequest, st, ⟨[req], []⟩)
    | other => (.error (.fetchError other), st, ⟨[req], []⟩)

/-- Shorthand: a 403 response carrying a server epoch. -/
def resp403 (server_epoch : Option Int) : ProdResp := ⟨403, server_epoch, none, none, none⟩

/-- Shorthand: a 200 response carrying a next offset. -/
def resp200 (offset : String) : ProdResp := ⟨200, none, none, none, some offset⟩

/-- Shorthand: a 409 response carrying expected and received sequences. -/
def resp409 (expected received : Option Int) : ProdResp := ⟨409, none, expected, received, none⟩

/-! ## Theorems -/

/-- Once `consumed_by` is set, no sequence of session operations clears it. -/
theorem consumed_by_persists (m : String) :
    ∀ (ops : List SessionOp) (s : Session), s.consumed_by = some m →
      (ops.foldl applySession s).consumed_by = some m := by
  intro ops
  induction ops with
  | nil => intro s h; exact h
  | cons o rest ih =>
    intro s h
    simp only [List.foldl_cons]
    apply ih
    cases o with
    | close => simpa using h
    | consumeOp op =>
      have hc : consume s op = .error (.streamConsumed (methodName op) m) := by
        simp [consume, h]
      simp [applySession, hc, h]

/-- C1: the claim says a single-value append on a JSON stream sends the body
`[v]` on both append paths.  On the batching path (`_send_batch`) the body of
a one-message batch is indeed the array literal around the value.  On the
direct path (`_append_direct`) the source computes
`json.dumps(wrap_for_json_append(data))`, i.e. it serializes the already
wrapped array text as a JSON *string*: appending the JSON value `1` sends
the body `"[1]"` (a JSON string literal), which parses to a string, never to
a one-element array — contradicting the claim, the comment above the line
("wrap in array"), and `wrap_for_json_append`'s own contract. -/
theorem append_direct_json_double_encodes :
    append_direct_body (some "application/json") "1" = "\"[1]\"" ∧
    pyJsonLoads (append_direct_body (some "application/json") "1")
      = some (.jstr "[1]") ∧
    (∀ v : JsonVal,
      pyJsonLoads (append_direct_body (some "application/json") "1")
        ≠ some (.jarr [v])) ∧
    wrap_for_json_append "1" = "[1]" ∧
    send_batch_body (some "application/json") ["1"] = some "[1]" ∧
    pyJsonLoads "[1]" = some (.jarr [.jnum "1"]) := by
  refine ⟨rfl, rfl, ?_, rfl, rfl, rfl⟩
  intro v h
  have h2 : (JsonVal.jstr "[1]") = (JsonVal.jarr [v]) := by
    have h1 : pyJsonLoads (append_direct_body (some "application/json") "1")
        = some (.jstr "[1]") := rfl
    rw [h1] at h
    exact Option.some.inj h
  exact JsonVal.noConfusion h2

/-- C2 counterexample: dispatching a delete for key `"1"`, whose committed
value is `"v0"`, stages a `CollectionChange` with `previous_value = None`
(the committed value is put in `value` instead), so the staged change does
not carry the previously committed value in its `previous_value` field. -/
theorem dispatch_delete_previous_value_counterexample :
    dispatch_change (fun _ v _ => .ok v)
        ⟨[("user", ⟨[("1", JsonVal.jstr "v0")], ["1"], []⟩)], [], false⟩
        ⟨some "user", some "1", none, some ⟨some "delete", none, none⟩⟩
      = .ok ⟨[("user", ⟨[("1", JsonVal.jstr "v0")], ["1"],
              [⟨"1", "delete", some (JsonVal.jstr "v0"), none⟩]⟩)], [], true⟩ ∧
    (none : Option JsonVal) ≠ some (JsonVal.jstr "v0") := by
  exact ⟨rfl, by simp⟩

/-- C2 (amended): for a delete event on a declared collection the staged
change has type `"delete"`, carries the previously committed value of the
key in its `value` field, and has `previous_value = None`. -/
theorem dispatch_delete_stages_committed_value (validate : String → JsonVal → String → Except DBError JsonVal)
    (st : DispatcherState) (etype key : String) (view : CollectionState)
    (hv : Option JsonVal) (hc : Option String)
    (hfind : st.collections.find? (fun e => e.1 = etype) = some (etype, view)) :
    dispatch_change validate st ⟨some etype, some key, hv, some ⟨some "delete", none, hc⟩⟩
      = .ok { (setCollection st etype
                { view with pending := view.pending ++ [⟨key, "delete", view.get key, none⟩] }) with
              pending_any := true } := by
  simp [dispatch_change, is_change_event, hfind]

/-- C2 (amended) witness: a concrete delete dispatch. -/
theorem dispatch_delete_stages_committed_value_witness :
    dispatch_change (fun _ v _ => .ok v)
        ⟨[("user", ⟨[("1", JsonVal.jstr "v0")], ["1"], []⟩)], [], false⟩
        ⟨some "user", some "1", none, some ⟨some "delete", none, none⟩⟩
      = .ok { (setCollection ⟨[("user", ⟨[("1", JsonVal.jstr "v0")], ["1"], []⟩)], [], false⟩ "user"
                { (⟨[("1", JsonVal.jstr "v0")], ["1"], []⟩ : CollectionState) with
                  pending := [] ++ [⟨"1", "delete",
                    (⟨[("1", JsonVal.jstr "v0")], ["1"], []⟩ : CollectionState).get "1", none⟩] }) with
              pending_any := true } :=
  dispatch_delete_stages_committed_value (fun _ v _ => .ok v)
    ⟨[("user", ⟨[("1", JsonVal.jstr "v0")], ["1"], []⟩)], [], false⟩
    "user" "1" ⟨[("1", JsonVal.jstr "v0")], ["1"], []⟩ none none rfl

/-- C4: on a `live=False` session whose initial response is not up-to-date,
`_read_bytes_internal` returns only the initial body and issues no
`fetch_next` call (the `if self._live is False: break` fires before the
loop fetches), even though a continuation response carrying the rest of the
catch-up data and the up-to-date flag is available; the same inputs under
`live="long-poll"` produce the full concatenation.  This contradicts the
claim (and the method's own docstring, "Read all bytes until up-to-date"). -/
theorem read_bytes_live_false_stops_before_up_to_date :
    read_bytes_internal .off ⟨200, some "1", none, false, "a"⟩
        [⟨200, some "2", none, true, "b"⟩]
      = some ("a", ⟨"1", none, false⟩, 0) ∧
    read_bytes_internal .longPoll ⟨200, some "1", none, false, "a"⟩
        [⟨200, some "2", none, true, "b"⟩]
      = some ("ab", ⟨"2", none, true⟩, 1) ∧
    ("a" : String) ≠ "ab" := by
  refine ⟨rfl, rfl, by decide⟩

/-- C7: on a 403 with server epoch `E`, a producer with `auto_claim=True`
sets its epoch to `E + 1` and `next_seq` to `1` and retries the same batch
once with sequence `0` on the new epoch; with `auto_claim=False` the send
fails with `StaleEpochError(E)` and the producer state is unchanged. -/
theorem producer_403_auto_claim_and_stale (α : Type) (batch : α)
    (w : Int → Int → Option ProducerError) (st : ProducerState)
    (seq epoch E : Int) (off : String) :
    do_send_batch true batch w st seq epoch [resp403 (some E), resp200 off]
      = (.ok ⟨off, false⟩, ⟨E + 1, 1⟩, ⟨[(epoch, seq, batch), (E + 1, 0, batch)], []⟩) ∧
    do_send_batch false batch w st seq epoch [resp403 (some E)]
      = (.error (.staleEpoch E), st, ⟨[(epoch, seq, batch)], []⟩) := by
  exact ⟨rfl, rfl⟩

/-- C8: on a 409 with expected sequence `x`: when `x < seq` the producer
waits for the completion of exactly the sequences in `[x, seq)` on the same
epoch (in order) and then retries the same batch with the same sequence
`seq`; when `x ≥ seq` the send fails with `SequenceGapError(x, received)`
and the state is unchanged. -/
theorem producer_409_reorder_and_gap (α : Type) (batch : α)
    (w : Int → Int → Option ProducerError) (ac : Bool) (st : ProducerState)
    (seq epoch x rcv : Int) (off : String) :
    (x < seq →
      (∀ s', x ≤ s' → s' < seq → w epoch s' = none) →
      do_send_batch ac batch w st seq epoch [resp409 (some x) none, resp200 off]
        = (.ok ⟨off, false⟩, st,
            ⟨[(epoch, seq, batch), (epoch, seq, batch)],
              (intRange x seq).map (fun s' => (epoch, s'))⟩) ∧
      (∀ p : Int × Int,
        p ∈ (intRange x seq).map (fun s' => (epoch, s')) ↔
          p.1 = epoch ∧ x ≤ p.2 ∧ p.2 < seq)) ∧
    (seq ≤ x →
      do_send_batch ac batch w st seq epoch [resp409 (some x) (some rcv)]
        = (.error (.sequenceGap x rcv), st, ⟨[(epoch, seq, batch)], []⟩)) := by
  constructor
  · intro hlt hw
    have hmem : ∀ s' ∈ intRange x seq, w epoch s' = none := by
      intro s' hs'
      have hb : x ≤ s' ∧ s' < seq := by
        simp only [intRange, List.mem_map, List.mem_range] at hs'
        obtain ⟨i, hi, rfl⟩ := hs'
        omega
      exact hw _ hb.1 hb.2
    have hawait : ∀ (l : List Int), (∀ s' ∈ l, w epoch s' = none) →
        awaitSeqList w epoch l = (none, l.map (fun s' => (epoch, s'))) := by
      intro l
      induction l with
      | nil => intro _; rfl
      | cons a t ih =>
        intro hall
        have ha := hall a (by simp)
        have ht := ih (fun s' hs' => hall s' (by simp [hs']))
        simp [awaitSeqList, ha, ht]
    constructor
    · simp only [do_send_batch, resp409, resp200, Option.getD_some]
      rw [if_pos hlt, hawait _ hmem]
      simp [do_send_batch, resp200]
    · intro p
      obtain ⟨p1, p2⟩ := p
      simp only [intRange, List.mem_map, List.mem_range, Prod.mk.injEq]
      constructor
      · rintro ⟨s', ⟨i, hi, rfl⟩, he, rfl⟩
        exact ⟨he.symm, by omega, by omega⟩
      · rintro ⟨h1, h2, h3⟩
        exact ⟨p2, ⟨(p2 - x).toNat, by omega, by omega⟩, h1.symm, rfl⟩
  · intro hge
    have hnl : ¬ x < seq := by omega
    simp only [do_send_batch, resp409, Option.getD_some]
    rw [if_neg hnl]

/-- C8 witness: a concrete reorder-retry and a concrete gap failure. -/
theorem producer_409_reorder_and_gap_witness :
    do_send_batch false "B" (fun _ _ => none) ⟨0, 5⟩ 4 0
        [resp409 (some 2) none, resp200 "o"]
      = (.ok ⟨"o", false⟩, ⟨0, 5⟩, ⟨[(0, 4, "B"), (0, 4, "B")], [(0, 2), (0, 3)]⟩) ∧
    do_send_batch false "B" (fun _ _ => none) ⟨0, 5⟩ 4 0 [resp409 (some 7) (some 9)]
      = (.error (.sequenceGap 7 9), ⟨0, 5⟩, ⟨[(0, 4, "B")], []⟩) := by
  have h := producer_409_reorder_and_gap String "B" (fun _ _ => none) false ⟨0, 5⟩ 4 0 2 9 "o"
  have h2 := producer_409_reorder_and_gap String "B" (fun _ _ => none) false ⟨0, 5⟩ 4 0 7 9 "o"
  refine ⟨((h.1 (by decide) (fun _ _ _ => rfl)).1).trans ?_, h2.2 (by decide)⟩
  rfl

/-- C3: once a consumption method has succeeded, every later consumption
attempt (including the same method) raises `StreamConsumedError` with code
`ALREADY_CONSUMED`, whose message names both the attempted and the original
method; and `consumed_by`, once set, survives every further operation on the
session. -/
theorem consumption_is_one_shot (s : Session) (op1 : ConsumeOp) (s' : Session)
    (op2 : ConsumeOp) (h : consume s op1 = .ok s') :
    consume s' op2 = .error (.streamConsumed (methodName op2) (methodName op1)) ∧
    SessionError.code (.streamConsumed (methodName op2) (methodName op1))
      = "ALREADY_CONSUMED" ∧
    streamConsumedMessage (methodName op2) (methodName op1)
      = "Cannot call " ++ methodName op2 ++
          "() - stream was already consumed via " ++ methodName op1 ++ "()" ∧
    ∀ ops : List SessionOp,
      (ops.foldl applySession s').consumed_by = some (methodName op1) := by
  have hs' : s'.consumed_by = some (methodName op1) := by
    unfold consume at h
    cases hc : s.consumed_by with
    | some prev => rw [hc] at h; exact absurd h (by simp)
    | none =>
      rw [hc] at h
      cases hp : precheckError s op1 with
      | some e => rw [hp] at h; exact absurd h (by simp)
      | none =>
        rw [hp] at h
        injection h with h
        subst h
        rfl
  refine ⟨by simp [consume, hs'], rfl, rfl, fun ops => consumed_by_persists _ ops s' hs'⟩

/-- C3 witness: `read_bytes` then `iter_json` on a fresh non-SSE session. -/
theorem consumption_is_one_shot_witness :
    consume ⟨false, some "read_bytes", false⟩ .iter_json
      = .error (.streamConsumed "iter_json" "read_bytes") ∧
    ([SessionOp.close].foldl applySession
        ⟨false, some "read_bytes", false⟩).consumed_by = some "read_bytes" := by
  have h := consumption_is_one_shot ⟨false, none, false⟩ .read_bytes
    ⟨false, some "read_bytes", false⟩ .iter_json rfl
  exact ⟨h.1, h.2.2.2 [SessionOp.close]⟩

/-- C9 counterexample: `iter_events(mode="json", encoding="latin-1")` on an
SSE session raises nothing — there is no encoding precheck on `iter_events`
— and marks the session consumed, contrary to the claim that this
combination fails a mode precheck and leaves the session unconsumed. -/
theorem iter_events_encoding_not_prechecked :
    consume ⟨true, none, false⟩ (.iter_events .json "latin-1")
      = .ok ⟨true, some "iter_events", false⟩ ∧
    normEncoding "latin-1" ≠ "utf8" := by
  exact ⟨rfl, by decide⟩

/-- C9 (amended): whenever a consumption method raises on a fresh session —
which happens exactly on the real mode prechecks: bytes iteration,
`read_bytes` and `iter_events(mode="bytes")` in SSE mode, the read-all
methods in SSE mode, and `iter_text` (only) with a non-UTF-8 encoding in SSE
mode — the session stays unconsumed and any method whose precheck passes
still succeeds afterwards. -/
theorem precheck_failure_leaves_unconsumed (s : Session) (op : ConsumeOp)
    (e : SessionError) (hnone : s.consumed_by = none)
    (herr : consume s op = .error e) :
    (applySession s (.consumeOp op)).consumed_by = none ∧
    ∀ op2 : ConsumeOp, precheckError s op2 = none →
      consume s op2 = .ok { s with consumed_by := some (methodName op2) } := by
  constructor
  · simp [applySession, herr, hnone]
  · intro op2 hpre
    simp [consume, hnone, hpre]

/-- C9 (amended) witness: `read_text` on a fresh SSE session raises and
leaves the session unconsumed; `iter_json` then succeeds. -/
theorem precheck_failure_leaves_unconsumed_witness :
    (applySession ⟨true, none, false⟩ (.consumeOp (.read_text "utf-8"))).consumed_by
      = none ∧
    consume ⟨true, none, false⟩ .iter_json
      = .ok ⟨true, some "iter_json", false⟩ := by
  have h := precheck_failure_leaves_unconsumed ⟨true, none, false⟩
    (.read_text "utf-8") (.sseReadAll "read_text") rfl rfl
  exact ⟨h.1, h.2 .iter_json rfl⟩

theorem iter_sse_buffer_datas (mode : EvMode) :
    ∀ (ds : List String) (converted : List EvData) (buf : List EvData)
      (m : SSEMeta) (rest : List SSEEv),
      convertAll mode ds = Except.ok converted →
      iter_sse_events_from mode buf m (ds.map SSEEv.dataEv ++ rest)
        = iter_sse_events_from mode (buf ++ converted) m rest := by
  intro ds
  induction ds with
  | nil =>
    intro converted buf m rest h
    simp only [convertAll, Except.ok.injEq] at h
    subst h
    simp
  | cons d ds' ih =>
    intro converted buf m rest h
    cases hc : convert_sse_data mode d with
    | error e => simp [convertAll, hc] at h
    | ok x =>
      cases hm : convertAll mode ds' with
      | error e => simp [convertAll, hc, hm] at h
      | ok xs =>
        have hxc : converted = x :: xs := by
          simp [convertAll, hc, hm] at h
          exact h.symm
        subst hxc
        simp only [List.map_cons, List.cons_append]
        rw [show iter_sse_events_from mode buf m (SSEEv.dataEv d :: (ds'.map SSEEv.dataEv ++ rest))
              = iter_sse_events_from mode (buf ++ [x]) m (ds'.map SSEEv.dataEv ++ rest) by
            simp [iter_sse_events_from, hc]]
        rw [ih xs (buf ++ [x]) m rest hm]
        simp

/-- C5: data frames are buffered until the next control frame and are then
emitted as `StreamEvent`s whose `next_offset` and `up_to_date` are exactly
the control frame's advertised offset and up-to-date flag (and whose cursor
is the metadata state after applying the control frame); data frames still
buffered at end of stream are emitted with the last known metadata.  Stated
for a whole run `datas ++ [control] ++ trailing-datas`: the pre-control
frames are flushed at the control frame, the trailing frames at end of
stream, all carrying the control frame's offset and flag. -/
theorem sse_events_metadata_alignment (mode : EvMode) (m : SSEMeta)
    (ds ds2 : List String) (off : JsonVal) (cur : Option JsonVal) (utd : JsonVal)
    (converted converted2 : List EvData)
    (h1 : convertAll mode ds = Except.ok converted)
    (h2 : convertAll mode ds2 = Except.ok converted2) :
    iter_sse_events mode m
        (ds.map SSEEv.dataEv ++ SSEEv.controlEv off cur utd :: ds2.map SSEEv.dataEv)
      = .ok ((converted ++ converted2).map
          (fun d => ⟨d, off, utd, (applyControl m off cur utd).cursor⟩),
          applyControl m off cur utd) := by
  unfold iter_sse_events
  rw [iter_sse_buffer_datas mode ds converted [] m _ h1]
  simp only [List.nil_append]
  have hinner : iter_sse_events_from mode [] (applyControl m off cur utd) (ds2.map SSEEv.dataEv)
      = .ok (converted2.map (fun d =>
          ⟨d, (applyControl m off cur utd).offset, (applyControl m off cur utd).up_to_date,
            (applyControl m off cur utd).cursor⟩), applyControl m off cur utd) := by
    rw [← List.append_nil (ds2.map SSEEv.dataEv)]
    rw [iter_sse_buffer_datas mode ds2 converted2 [] (applyControl m off cur utd) [] h2]
    simp [iter_sse_events_from]
  simp only [iter_sse_events_from]
  rw [hinner]
  simp [applyControl, List.map_append]

theorem runChars_shift (l : List Char) :
    ∀ (core : SSECore) (cur xs : List Char), (∀ c ∈ l, c ≠ '\n') →
      runChars core (cur ++ l) xs = runChars core cur (l ++ xs) := by
  induction l with
  | nil => intro core cur xs _; simp
  | cons c t ih =>
    intro core cur xs hl
    have hc : c ≠ '\n' := hl c (by simp)
    rw [show cur ++ c :: t = (cur ++ [c]) ++ t by simp]
    rw [ih core (cur ++ [c]) xs (fun d hd => hl d (by simp [hd]))]
    rw [show (c :: t) ++ xs = c :: (t ++ xs) by simp]
    conv_rhs => rw [runChars]
    rw [if_neg hc]

theorem runChars_left_no_nl (xs : List Char) :
    ∀ (core : SSECore) (cur : List Char) (evs : List SSEEv) (cf : SSECore)
      (left : List Char),
      (∀ c ∈ cur, c ≠ '\n') → runChars core cur xs = .ok (evs, cf, left) →
      ∀ c ∈ left, c ≠ '\n' := by
  induction xs with
  | nil =>
    intro core cur evs cf left hcur h
    simp only [runChars, Except.ok.injEq, Prod.mk.injEq] at h
    obtain ⟨-, -, h3⟩ := h
    subst h3
    exact hcur
  | cons c cs ih =>
    intro core cur evs cf left hcur h
    by_cases hc : c = '\n'
    · subst hc
      rw [runChars, if_pos rfl] at h
      cases hh : handle_line core cur with
      | error e => rw [hh] at h; exact absurd h (by simp)
      | ok p =>
        obtain ⟨ev, core'⟩ := p
        rw [hh] at h
        dsimp only at h
        cases hr : runChars core' [] cs with
        | error e => rw [hr] at h; exact absurd h (by simp)
        | ok q =>
          obtain ⟨evs2, cf2, left2⟩ := q
          rw [hr] at h
          dsimp only at h
          simp only [Except.ok.injEq, Prod.mk.injEq] at h
          obtain ⟨-, -, h3⟩ := h
          subst h3
          exact ih core' [] evs2 cf2 left2 (by simp) hr
    · rw [runChars, if_neg hc] at h
      refine ih core (cur ++ [c]) evs cf left ?_ h
      intro d hd
      rcases List.mem_append.mp hd with h1 | h2
      · exact hcur d h1
      · simp at h2; subst h2; exact hc

theorem runChars_append (xs : List Char) :
    ∀ (core : SSECore) (cur ys : List Char),
      runChars core cur (xs ++ ys)
        = match runChars core cur xs with
          | .error e => .error e
          | .ok (evs, cf, left) =>
            match runChars cf left ys with
            | .error e => .error e
            | .ok (evs2, cf2, left2) => .ok (evs ++ evs2, cf2, left2) := by
  induction xs with
  | nil =>
    intro core cur ys
    simp only [List.nil_append, runChars]
    cases hr : runChars core cur ys with
    | error e => rfl
    | ok q => obtain ⟨evs2, cf2, left2⟩ := q; simp
  | cons c cs ih =>
    intro core cur ys
    rw [List.cons_append]
    by_cases hc : c = '\n'
    · subst hc
      rw [runChars, if_pos rfl]
      conv_rhs => rw [runChars, if_pos rfl]
      cases hh : handle_line core cur with
      | error e => rfl
      | ok p =>
        obtain ⟨ev, core'⟩ := p
        dsimp only
        rw [ih core' [] ys]
        cases hr : runChars core' [] cs with
        | error e => rfl
        | ok q =>
          obtain ⟨evs2, cf2, left2⟩ := q
          dsimp only
          cases hr2 : runChars cf2 left2 ys with
          | error e => rfl
          | ok q2 => obtain ⟨evs3, cf3, left3⟩ := q2; simp
    · rw [runChars, if_neg hc]
      conv_rhs => rw [runChars, if_neg hc]
      exact ih core (cur ++ [c]) ys

/-- C10: the incremental SSE parser is insensitive to chunk boundaries: from
any parser state, feeding `a` and then `b` yields the same concatenated
event list, the same final state, and the same error behaviour as feeding
`a ++ b` at once. -/
theorem feed_chunk_boundary_insensitive (st : SSEParserState) (a b : String) :
    feedTwice st a b = feed st (a ++ b) := by
  have hdata : (a ++ b).data = a.data ++ b.data := String.data_append a b
  unfold feedTwice feed
  rw [hdata, show st.buffer.data ++ (a.data ++ b.data) = (st.buffer.data ++ a.data) ++ b.data by simp]
  rw [runChars_append (st.buffer.data ++ a.data) st.core [] b.data]
  cases hr : runChars st.core [] (st.buffer.data ++ a.data) with
  | error e => rfl
  | ok q =>
    obtain ⟨evs1, cf, left⟩ := q
    have hnl : ∀ c ∈ left, c ≠ '\n' :=
      runChars_left_no_nl _ st.core [] evs1 cf left (by simp) hr
    have hshift : runChars cf left b.data = runChars cf [] (left ++ b.data) := by
      have := runChars_shift left cf [] b.data hnl
      simpa using this
    dsimp only
    rw [← hshift]
    cases hr2 : runChars cf left b.data with
    | error e => rfl
    | ok q2 => obtain ⟨evs2, cf2, left2⟩ := q2; rfl

/-- C5 witness: one data frame before and one after a control frame
advertising offset `"O"` and up-to-date, in text mode. -/
theorem sse_events_metadata_alignment_witness :
    iter_sse_events .text ⟨.jstr "", none, .jbool false⟩
        [.dataEv "a", .controlEv (.jstr "O") none (.jbool true), .dataEv "b"]
      = .ok ([⟨.textData "a", .jstr "O", .jbool true, none⟩,
              ⟨.textData "b", .jstr "O", .jbool true, none⟩],
             ⟨.jstr "O", none, .jbool true⟩) := by
  have h := sse_events_metadata_alignment .text ⟨.jstr "", none, .jbool false⟩
    ["a"] ["b"] (.jstr "O") none (.jbool true) [.textData "a"] [.textData "b"] rfl rfl
  simpa using h

/-- C6 counterexample: the control frame data `5` is valid JSON, yet
`_emit_event` neither produces an `SSEControlEvent` nor raises
`PARSE_ERROR`: `json.loads` returns the int `5` and `control.get(...)`
raises an uncaught `AttributeError`. -/
theorem control_valid_json_non_object :
    pyJsonLoads (String.intercalate "\n" ["5"]) = some (.jnum "5") ∧
    emit_event ⟨some "control", ["5"]⟩ = .error .attributeError ∧
    SSEError.attributeError ≠ SSEError.parseError := by
  exact ⟨rfl, rfl, by decide⟩

/-- C6 (amended): for a control event with at least one data line, malformed
JSON raises `PARSE_ERROR` (the frame is never silently dropped), and data
parsing to a JSON object yields an `SSEControlEvent` whose fields are taken
from the `streamNextOffset`, `streamCursor` and `upToDate` members
(defaulting to `""`, `None`, `False` when absent).  Valid JSON that is not
an object crashes with an `AttributeError` instead; a control frame with no
data lines is dropped without parsing. -/
theorem control_frame_parse (lines : List String) (h : lines ≠ []) :
    (pyJsonLoads (String.intercalate "\n" lines) = none →
      emit_event ⟨some "control", lines⟩ = .error .parseError) ∧
    (∀ fields, pyJsonLoads (String.intercalate "\n" lines) = some (.jobj fields) →
      emit_event ⟨some "control", lines⟩ =
        .ok (some (.controlEv ((objGet fields "streamNextOffset").getD (.jstr ""))
          (objGet fields "streamCursor")
          ((objGet fields "upToDate").getD (.jbool false))))) := by
  constructor
  · intro hp
    simp [emit_event, h, hp]
  · intro fields hp
    simp [emit_event, h, hp]

/-- C6 (amended) witness: an empty JSON object as control data. -/
theorem control_frame_parse_witness :
    emit_event ⟨some "control", ["\x7b\x7d"]⟩
      = .ok (some (.controlEv (.jstr "") none (.jbool false))) := by
  have h := (control_frame_parse ["\x7b\x7d"] (by simp)).2 [] rfl
  exact h

end DurableStreams
